import Mathlib

/-!
# Verification of the mini-redis TTL key-value store core

Shallow embedding of the core of the `mini_redis` C++ repository:
the generic `ThreadSafeHashMap` (an `std::unordered_map` behind a
reader-writer lock), the `KeyValueStore` with TTL semantics built on it,
the `ExpiryManager` lifecycle, and the setup phase of `TcpServer::start`.

Modelling conventions:
* The `std::unordered_map` content is an association list with unique keys
  (uniqueness is irrelevant to the stated properties; the operations are
  translated so that they act like the C++ ones on any list).
* The monotonic clock `std::chrono::steady_clock` is modelled as `Nat`
  instants.  `is_expired` calls `steady_clock::now()` itself, once per
  invocation; operations that invoke it several times (the `keys` traversal
  and the `cleanup_expired` sweep call it once per visited entry) therefore
  take a `readings : Nat → Nat` argument giving the value returned by the
  i-th `now()` call inside that operation, and operations that invoke it
  once take a single `now : Nat`.
* Locks serialize each operation; a single operation is therefore a pure
  state transformer on the map contents.
-/

namespace MiniRedis

/-! ## ThreadSafeHashMap (thread_safe_hash_map.hpp)

`ThreadSafeHashMap<Key, Value>` wraps `std::unordered_map<Key, Value>`;
each method takes a lock and performs one map operation. -/

/-- The contents of `ThreadSafeHashMap<Key, Value>`: the entries of the
underlying `std::unordered_map`, keys unique, order irrelevant. -/
abbrev HMap (K V : Type) := List (K × V)

/-- `ThreadSafeHashMap::get`: `map_.find(key)`, returning the mapped value
of the entry with that key, or `none` when absent. -/
def mapGet {K V : Type} [BEq K] (m : HMap K V) (key : K) : Option V :=
  match m with
  | [] => none
  | (k, v) :: rest => if k == key then some v else mapGet rest key

/-- `ThreadSafeHashMap::set`: `map_.insert_or_assign(key, value)` — if the
key exists, overwrite its mapped value; otherwise insert a new entry. -/
def mapSet {K V : Type} [BEq K] (m : HMap K V) (key : K) (value : V) : HMap K V :=
  match m with
  | [] => [(key, value)]
  | (k, v) :: rest =>
    if k == key then (key, value) :: rest else (k, v) :: mapSet rest key value

/-- `map_.erase(key)` inside `ThreadSafeHashMap::remove`: drop every entry
with this key (at most one exists) and report how many were dropped. -/
def mapErase {K V : Type} [BEq K] (m : HMap K V) (key : K) : HMap K V × Nat :=
  match m with
  | [] => ([], 0)
  | (k, v) :: rest =>
    let r := mapErase rest key
    if k == key then (r.1, r.2 + 1) else ((k, v) :: r.1, r.2)

/-- `ThreadSafeHashMap::remove`: `return map_.erase(key) > 0;` together with
the resulting map contents. -/
def mapRemove {K V : Type} [BEq K] (m : HMap K V) (key : K) : HMap K V × Bool :=
  let (m', c) := mapErase m key
  (m', decide (0 < c))

/-- `ThreadSafeHashMap::keys`: push every key, in iteration order. -/
def mapKeys {K V : Type} (m : HMap K V) : List K := m.map (·.1)

/-- `ThreadSafeHashMap::size`: `map_.size()`. -/
def mapSize {K V : Type} (m : HMap K V) : Nat := m.length

/-- `ThreadSafeHashMap::remove_if`: the erase-and-advance loop — visit each
entry in iteration order, erase it when the predicate holds, and count the
erased entries. -/
def mapRemoveIf {K V : Type} (p : K → V → Bool) (m : HMap K V) : HMap K V × Nat :=
  match m with
  | [] => ([], 0)
  | (k, v) :: rest =>
    let r := mapRemoveIf p rest
    if p k v then (r.1, r.2 + 1) else ((k, v) :: r.1, r.2)

/-! ## KeyValueStore (key_value_store.hpp / key_value_store.cpp) -/

/-- `StoreEntry`: the stored value plus an optional monotonic-clock
expiration instant; `none` means "never expires". -/
structure StoreEntry where
  value : String
  expires_at : Option Nat
deriving DecidableEq, Repr

/-- Contents of the store's `ThreadSafeHashMap<std::string, StoreEntry>`. -/
abbrev StoreMap := HMap String StoreEntry

/-- `KeyValueStore::is_expired`, with the result of its one
`steady_clock::now()` call passed in as `now`: no `expires_at` means never
expired; otherwise expired iff `now >= expires_at`. -/
def is_expired (now : Nat) (e : StoreEntry) : Bool :=
  match e.expires_at with
  | none => false
  | some t => decide (t ≤ now)

/-- `KeyValueStore::calculate_expiry`, with the result of its
`steady_clock::now()` call passed in as `now`: `ttl_seconds <= 0` gives no
expiry, otherwise `now + ttl_seconds`. -/
def calculate_expiry (now : Nat) (ttl_seconds : Int) : Option Nat :=
  if ttl_seconds ≤ 0 then none else some (now + ttl_seconds.toNat)

/-- `KeyValueStore::get`: fetch the entry; absent gives `none`; an expired
entry is removed from the map ("lazy deletion") and gives `none`; otherwise
the stored value is returned and the map is untouched.  `now` is the reading
of the single `steady_clock::now()` call inside `is_expired`. -/
def kvGet (now : Nat) (m : StoreMap) (key : String) : Option String × StoreMap :=
  match mapGet m key with
  | none => (none, m)
  | some e =>
    if is_expired now e then (none, (mapRemove m key).1)
    else (some e.value, m)

/-- `KeyValueStore::set`: build `StoreEntry{value, calculate_expiry(ttl)}`
and store it with `ThreadSafeHashMap::set`.  `now` is the reading of the
`steady_clock::now()` call inside `calculate_expiry` (unused when
`ttl_seconds <= 0`). -/
def kvSet (now : Nat) (m : StoreMap) (key value : String) (ttl_seconds : Int) :
    StoreMap :=
  mapSet m key { value := value, expires_at := calculate_expiry now ttl_seconds }

/-- `KeyValueStore::remove`: delegate to `ThreadSafeHashMap::remove`. -/
def kvRemove (m : StoreMap) (key : String) : Bool × StoreMap :=
  ((mapRemove m key).2, (mapRemove m key).1)

/-- The `for_each` traversal inside `KeyValueStore::keys`, visiting entries
in iteration order starting at call number `i` of `steady_clock::now()`:
each visited entry triggers one `now()` call inside `is_expired`, and the
key is kept iff that call finds it not expired. -/
def kvKeysFrom (readings : Nat → Nat) : Nat → StoreMap → List String
  | _, [] => []
  | i, (k, e) :: rest =>
    if is_expired (readings i) e then kvKeysFrom readings (i + 1) rest
    else k :: kvKeysFrom readings (i + 1) rest

/-- `KeyValueStore::keys` (a `const` method): collect the keys of the
entries found non-expired at their inspection instants; the map contents
are returned unchanged alongside to make the absence of mutation explicit. -/
def kvKeys (readings : Nat → Nat) (m : StoreMap) : List String × StoreMap :=
  (kvKeysFrom readings 0 m, m)

/-- The `remove_if` sweep inside `KeyValueStore::cleanup_expired`, visiting
entries in iteration order starting at call number `i` of
`steady_clock::now()`: the predicate `is_expired(entry)` performs one fresh
`now()` call per visited entry. -/
def cleanupFrom (readings : Nat → Nat) : Nat → StoreMap → StoreMap × Nat
  | _, [] => ([], 0)
  | i, (k, e) :: rest =>
    let r := cleanupFrom readings (i + 1) rest
    if is_expired (readings i) e then (r.1, r.2 + 1) else ((k, e) :: r.1, r.2)

/-- `KeyValueStore::cleanup_expired`: `store_.remove_if` with the
`is_expired` predicate; returns the new contents and the removed count. -/
def cleanup_expired (readings : Nat → Nat) (m : StoreMap) : StoreMap × Nat :=
  cleanupFrom readings 0 m

/-- The spec's wording of `cleanup_expired`, for comparison: judge every
entry against one single `now` reading taken before the scan begins, remove
exactly the entries expired at that instant, count them. -/
def cleanupSingleNow (now : Nat) (m : StoreMap) : StoreMap × Nat :=
  (m.filter (fun p => !is_expired now p.2),
   (m.filter (fun p => is_expired now p.2)).length)

/-! ## ExpiryManager (expiry_manager.hpp / expiry_manager.cpp)

The lifecycle state of the sweeper, as observed sequentially around its
`start`/`stop` calls: the `stop_requested_` atomic flag and whether
`cleanup_thread_` is joinable (a default-constructed thread is not; a
joined thread no longer is).  `stop()` on a joinable thread signals the
flag, wakes the waiter, and joins — `join` returning is the embedding of
"blocks until the loop has exited". -/

/-- Observable lifecycle state of an `ExpiryManager`. -/
structure ExpiryManager where
  stop_requested : Bool
  joinable : Bool
deriving DecidableEq, Repr

/-- A freshly constructed `ExpiryManager`: flag false
(`std::atomic<bool> stop_requested_{false}`), thread default-constructed,
hence not joinable — the "never started" state. -/
def emInit : ExpiryManager := { stop_requested := false, joinable := false }

/-- `ExpiryManager::start`: reset the stop flag and launch the cleanup
thread (now joinable). -/
def emStart (_m : ExpiryManager) : ExpiryManager :=
  { stop_requested := false, joinable := true }

/-- `ExpiryManager::stop`: return immediately if the thread is not
joinable; otherwise set the stop flag, notify, and join (after which the
thread has exited and is no longer joinable). -/
def emStop (m : ExpiryManager) : ExpiryManager :=
  if m.joinable then { stop_requested := true, joinable := false } else m

/-! ## TcpServer::start (tcp_server.cpp)

The setup phase performs three fallible steps — `Socket::create_tcp()`,
`bind_to(port_)`, `start_listening()` — each of which, on failure, logs one
`Logger::error` line and returns before the accept loop.  On success the
accept loop runs until `stop_requested_` is observed true, accepting
connections and submitting one task per accepted connection.  The loop is
modelled with the flag value read at each loop head (`stopFlag i`), the
success of each `accept_connection` call (`accepts i`), and fuel bounding
the number of iterations simulated. -/

/-- Observable outcome of one `TcpServer::start` invocation. -/
structure StartTrace where
  errors : List String
  entered_accept_loop : Bool
  connections_accepted : Nat
  tasks_submitted : Nat
deriving DecidableEq, Repr

/-- The accept loop from iteration `i` on: check the stop flag, block in
`accept_connection` (success given by `accepts i`), and on success submit
one task to the thread pool; returns (connections accepted, tasks
submitted) over at most `fuel` iterations. -/
def acceptLoop (stopFlag accepts : Nat → Bool) : Nat → Nat → Nat × Nat
  | _, 0 => (0, 0)
  | i, fuel + 1 =>
    if stopFlag i then (0, 0)
    else
      let r := acceptLoop stopFlag accepts (i + 1) fuel
      if accepts i then (r.1 + 1, r.2 + 1) else (r.1, r.2)

/-- `TcpServer::start`: socket creation, bind, listen — each failure logs
and returns at once — then the accept loop. -/
def tcpStart (createOk bindOk listenOk : Bool) (stopFlag accepts : Nat → Bool)
    (fuel : Nat) : StartTrace :=
  if !createOk then
    { errors := ["Failed to create server socket"], entered_accept_loop := false,
      connections_accepted := 0, tasks_submitted := 0 }
  else if !bindOk then
    { errors := ["Failed to bind to port"], entered_accept_loop := false,
      connections_accepted := 0, tasks_submitted := 0 }
  else if !listenOk then
    { errors := ["Failed to start listening"], entered_accept_loop := false,
      connections_accepted := 0, tasks_submitted := 0 }
  else
    { errors := [], entered_accept_loop := true,
      connections_accepted := (acceptLoop stopFlag accepts 0 fuel).1,
      tasks_submitted := (acceptLoop stopFlag accepts 0 fuel).2 }

/-! ## Concrete inputs used by counterexamples and witnesses -/

/-- A monotonic trace of `steady_clock::now()` readings for a two-entry
sweep: the clock advances from instant 0 to instant 10 between the first
and the second in-scan reading. -/
def cexReadings : Nat → Nat := fun i => if i = 0 then 0 else 10

/-- Two entries under TTL: `"a"` expires far in the future (instant 100)
and `"b"` expires at instant 5 — after the scan begins (instant 0) but
before its own inspection (instant 10). -/
def cexMap : StoreMap :=
  [("a", { value := "x", expires_at := some 100 }),
   ("b", { value := "y", expires_at := some 5 })]

/-- One permanent key and one key whose TTL has elapsed by instant 10. -/
def c7Map : StoreMap :=
  [("perm", { value := "v", expires_at := none }),
   ("tmp", { value := "w", expires_at := some 5 })]

/-! ## Helper lemmas -/

theorem mapGet_mapSet_self {K V : Type} [BEq K] [LawfulBEq K]
    (m : HMap K V) (k : K) (v : V) : mapGet (mapSet m k v) k = some v := by
  induction m with
  | nil => simp [mapSet, mapGet]
  | cons p rest ih =>
    obtain ⟨k', v'⟩ := p
    by_cases h : k' == k
    · simp [mapSet, mapGet, h]
    · simp [mapSet, mapGet, h, ih]

theorem mapGet_mapErase_self {K V : Type} [BEq K] [LawfulBEq K]
    (m : HMap K V) (k : K) : mapGet (mapErase m k).1 k = none := by
  induction m with
  | nil => simp [mapErase, mapGet]
  | cons p rest ih =>
    obtain ⟨k', v'⟩ := p
    by_cases h : k' == k
    · simp [mapErase, h, ih]
    · simp [mapErase, h, mapGet, ih]

theorem mapRemove_snd {K V : Type} [BEq K] (m : HMap K V) (k : K) :
    (mapRemove m k).2 = (mapGet m k).isSome := by
  induction m with
  | nil => simp [mapRemove, mapErase, mapGet]
  | cons p rest ih =>
    obtain ⟨k', v'⟩ := p
    by_cases h : k' == k
    · simp [mapRemove, mapErase, mapGet, h]
    · simp only [mapRemove, mapErase, mapGet, h] at ih ⊢
      simpa using ih

theorem mapRemove_fst {K V : Type} [BEq K] (m : HMap K V) (k : K) :
    (mapRemove m k).1 = (mapErase m k).1 := rfl

theorem cleanupFrom_eq (r : Nat → Nat) (i : Nat) (m : StoreMap) :
    cleanupFrom r i m =
      (((m.enumFrom i).filter (fun p => !is_expired (r p.1) p.2.2)).map (·.2),
       ((m.enumFrom i).filter (fun p => is_expired (r p.1) p.2.2)).length) := by
  induction m generalizing i with
  | nil => simp [cleanupFrom]
  | cons p rest ih =>
    obtain ⟨k, e⟩ := p
    by_cases h : is_expired (r i) e
    · simp [cleanupFrom, List.enumFrom, h, ih]
    · simp [cleanupFrom, List.enumFrom, h, ih]

theorem cleanupFrom_len (r : Nat → Nat) (i : Nat) (m : StoreMap) :
    (cleanupFrom r i m).1.length + (cleanupFrom r i m).2 = m.length := by
  induction m generalizing i with
  | nil => simp [cleanupFrom]
  | cons p rest ih =>
    obtain ⟨k, e⟩ := p
    have hrest := ih (i + 1)
    by_cases h : is_expired (r i) e
    · simp only [cleanupFrom, h, if_true, List.length_cons]
      omega
    · simp [cleanupFrom, h, List.length_cons]
      omega

theorem kvKeysFrom_eq (r : Nat → Nat) (i : Nat) (m : StoreMap) :
    kvKeysFrom r i m =
      ((m.enumFrom i).filter (fun p => !is_expired (r p.1) p.2.2)).map (·.2.1) := by
  induction m generalizing i with
  | nil => simp [kvKeysFrom]
  | cons p rest ih =>
    obtain ⟨k, e⟩ := p
    by_cases h : is_expired (r i) e
    · simp [kvKeysFrom, List.enumFrom, h, ih]
    · simp [kvKeysFrom, List.enumFrom, h, ih]

theorem mapRemoveIf_filter {K V : Type} (p : K → V → Bool) (m : HMap K V) :
    (mapRemoveIf p m).1 = m.filter (fun e => !p e.1 e.2) := by
  induction m with
  | nil => simp [mapRemoveIf]
  | cons q rest ih =>
    obtain ⟨k, v⟩ := q
    by_cases h : p k v
    · simp [mapRemoveIf, h, ih]
    · simp [mapRemoveIf, h, ih]

theorem mapRemoveIf_len {K V : Type} (p : K → V → Bool) (m : HMap K V) :
    (mapRemoveIf p m).1.length + (mapRemoveIf p m).2 = m.length := by
  induction m with
  | nil => simp [mapRemoveIf]
  | cons q rest ih =>
    obtain ⟨k, v⟩ := q
    by_cases h : p k v
    · simp only [mapRemoveIf, h, if_true, List.length_cons]
      omega
    · simp [mapRemoveIf, h, List.length_cons]
      omega

theorem mapRemoveIf_count {K V : Type} (p : K → V → Bool) (m : HMap K V) :
    (mapRemoveIf p m).2 = (m.filter (fun e => p e.1 e.2)).length := by
  induction m with
  | nil => simp [mapRemoveIf]
  | cons q rest ih =>
    obtain ⟨k, v⟩ := q
    by_cases h : p k v
    · simp [mapRemoveIf, h, ih]
    · simp [mapRemoveIf, h, ih]

theorem cleanup_expired_eq_removeIf (r : Nat → Nat) (t : Nat)
    (hr : ∀ i, r i = t) (m : StoreMap) :
    cleanup_expired r m = mapRemoveIf (fun _ e => is_expired t e) m := by
  have aux : ∀ i m', cleanupFrom r i m' = mapRemoveIf (fun _ e => is_expired t e) m' := by
    intro i m'
    induction m' generalizing i with
    | nil => simp [cleanupFrom, mapRemoveIf]
    | cons p rest ih =>
      obtain ⟨k, e⟩ := p
      simp only [cleanupFrom, mapRemoveIf, hr, ih]
  exact aux 0 m

/-! ## Claim theorems -/

/-- C1: `KeyValueStore::get` returns `none` on an absent key and leaves
the map unchanged; on a present entry with `now >= expires_at` it removes
the key from the map as a side effect (lazy deletion) and returns `none`;
otherwise it returns the stored value and leaves the map unchanged. -/
theorem kvGet_spec (now : Nat) (m : StoreMap) (key : String) :
    (mapGet m key = none → kvGet now m key = (none, m))
    ∧ (∀ e, mapGet m key = some e → is_expired now e = true →
        (kvGet now m key).1 = none
          ∧ (kvGet now m key).2 = (mapRemove m key).1
          ∧ mapGet (kvGet now m key).2 key = none)
    ∧ (∀ e, mapGet m key = some e → is_expired now e = false →
        kvGet now m key = (some e.value, m)) := by
  refine ⟨?_, ?_, ?_⟩
  · intro h; simp [kvGet, h]
  · intro e he hexp
    simp [kvGet, he, hexp, mapRemove_fst, mapGet_mapErase_self]
  · intro e he hexp
    simp [kvGet, he, hexp]

/-- Witness for C1: the absent, the expired (instant 10, expiry 5) and the
live (instant 3, expiry 5) branches, each at a concrete input. -/
theorem kvGet_spec_witness :
    kvGet 0 [] "k" = (none, [])
    ∧ mapGet (kvGet 10 [("k", { value := "v", expires_at := some 5 })] "k").2 "k" = none
    ∧ kvGet 3 [("k", { value := "v", expires_at := some 5 })] "k"
        = (some "v", [("k", { value := "v", expires_at := some 5 })]) :=
  ⟨(kvGet_spec 0 [] "k").1 rfl,
   ((kvGet_spec 10 [("k", { value := "v", expires_at := some 5 })] "k").2.1
      { value := "v", expires_at := some 5 } rfl (by decide)).2.2,
   (kvGet_spec 3 [("k", { value := "v", expires_at := some 5 })] "k").2.2
      { value := "v", expires_at := some 5 } rfl (by decide)⟩

/-- C3: after `set(k, v, ttl)` with `ttl <= 0` the stored entry has no
expiration time and `get(k)` returns the value (map unchanged) at every
time; with `ttl > 0` the stored expiry equals `now + ttl`. -/
theorem kvSet_ttl_spec (now : Nat) (m : StoreMap) (k v : String) (ttl : Int) :
    (ttl ≤ 0 →
      mapGet (kvSet now m k v ttl) k = some { value := v, expires_at := none }
      ∧ ∀ later, kvGet later (kvSet now m k v ttl) k = (some v, kvSet now m k v ttl))
    ∧ (0 < ttl →
      mapGet (kvSet now m k v ttl) k
        = some { value := v, expires_at := some (now + ttl.toNat) }) := by
  constructor
  · intro h
    have hget : mapGet (kvSet now m k v ttl) k
        = some { value := v, expires_at := none } := by
      simpa [kvSet, calculate_expiry, h] using
        mapGet_mapSet_self m k { value := v, expires_at := calculate_expiry now ttl }
    refine ⟨hget, fun later => ?_⟩
    simp [kvGet, hget, is_expired]
  · intro h
    have h' : ¬ ttl ≤ 0 := by omega
    simpa [kvSet, calculate_expiry, h'] using
      mapGet_mapSet_self m k { value := v, expires_at := calculate_expiry now ttl }

/-- Witness for C3: `ttl = 0` gives a never-expiring entry readable at the
far-future instant 1000000; `ttl = 7` at instant 2 stores expiry 9. -/
theorem kvSet_ttl_spec_witness :
    kvGet 1000000 (kvSet 0 [] "k" "v" 0) "k" = (some "v", kvSet 0 [] "k" "v" 0)
    ∧ mapGet (kvSet 2 [] "k" "v" 7) "k"
        = some { value := "v", expires_at := some 9 } :=
  ⟨((kvSet_ttl_spec 0 [] "k" "v" 0).1 (by decide)).2 1000000,
   by simpa using (kvSet_ttl_spec 2 [] "k" "v" 7).2 (by decide)⟩

/-- C4: a second `set` on the same key replaces the prior entry in full,
value and expiry both; a no-TTL `set` over a previously-TTL'd key clears
the expiry so the key no longer expires; and after `set(k,"a",0);
set(k,"b",0)`, `get(k)` returns `"b"`. -/
theorem kvSet_overwrite_spec :
    (∀ (n1 n2 : Nat) (m : StoreMap) (k v1 v2 : String) (t1 t2 : Int),
      mapGet (kvSet n2 (kvSet n1 m k v1 t1) k v2 t2) k
        = some { value := v2, expires_at := calculate_expiry n2 t2 })
    ∧ (∀ (n1 n2 : Nat) (m : StoreMap) (k v1 v2 : String) (t1 : Int) (later : Nat),
      kvGet later (kvSet n2 (kvSet n1 m k v1 t1) k v2 0) k
        = (some v2, kvSet n2 (kvSet n1 m k v1 t1) k v2 0))
    ∧ (kvGet 1000000 (kvSet 0 (kvSet 0 [] "k" "a" 0) "k" "b" 0) "k").1 = some "b" := by
  refine ⟨?_, ?_, by decide⟩
  · intro n1 n2 m k v1 v2 t1 t2
    simpa [kvSet] using mapGet_mapSet_self (kvSet n1 m k v1 t1) k
      { value := v2, expires_at := calculate_expiry n2 t2 }
  · intro n1 n2 m k v1 v2 t1 later
    have hget : mapGet (kvSet n2 (kvSet n1 m k v1 t1) k v2 0) k
        = some { value := v2, expires_at := none } := by
      simpa [kvSet, calculate_expiry] using
        mapGet_mapSet_self (kvSet n1 m k v1 t1) k
          { value := v2, expires_at := calculate_expiry n2 0 }
    simp [kvGet, hget, is_expired]

/-- C5: `remove` returns true exactly when an entry for the key is
physically present at the call (an expired-but-unswept entry included);
on an absent key it returns false, and a repeated `remove` after a
successful removal returns false. -/
theorem kvRemove_spec :
    (∀ (m : StoreMap) (k : String), (kvRemove m k).1 = (mapGet m k).isSome)
    ∧ (∀ (m : StoreMap) (k : String) (e : StoreEntry),
        mapGet m k = some e → (kvRemove m k).1 = true)
    ∧ (∀ (m : StoreMap) (k : String),
        mapGet m k = none → (kvRemove m k).1 = false)
    ∧ (∀ (m : StoreMap) (k : String), (kvRemove (kvRemove m k).2 k).1 = false) := by
  have hfst : ∀ (m : StoreMap) (k : String),
      (kvRemove m k).1 = (mapGet m k).isSome := fun m k => mapRemove_snd m k
  refine ⟨hfst, ?_, ?_, ?_⟩
  · intro m k e he; rw [hfst, he]; rfl
  · intro m k he; rw [hfst, he]; rfl
  · intro m k
    rw [hfst]
    have hnone : mapGet (kvRemove m k).2 k = none := by
      simpa [kvRemove, mapRemove_fst] using mapGet_mapErase_self m k
    rw [hnone]; rfl

/-- Witness for C5: removing a present (already-expired) entry returns
true; removing from the empty store returns false. -/
theorem kvRemove_spec_witness :
    (kvRemove [("k", { value := "v", expires_at := some 0 })] "k").1 = true
    ∧ (kvRemove ([] : StoreMap) "k").1 = false :=
  ⟨kvRemove_spec.2.1 [("k", { value := "v", expires_at := some 0 })] "k"
      { value := "v", expires_at := some 0 } rfl,
   kvRemove_spec.2.2.1 [] "k" rfl⟩

/-- C6: `keys()` returns exactly the keys whose entry is not expired at
the instant that entry is inspected during the traversal (`r i` for the
i-th entry), and performs no deletion — the store contents are unchanged
even when expired entries are encountered. -/
theorem kvKeys_spec (r : Nat → Nat) (m : StoreMap) :
    (kvKeys r m).1
      = (m.enum.filter (fun p => !is_expired (r p.1) p.2.2)).map (·.2.1)
    ∧ (kvKeys r m).2 = m := by
  refine ⟨?_, rfl⟩
  simpa [kvKeys, List.enum] using kvKeysFrom_eq r 0 m

/-- C2 counterexample: with the monotonic trace `cexReadings` (reading 0
at the first inspected entry, 10 at the second) the sweep removes `"b"`
(expiry 5, inspected at instant 10) and returns 1; but at instant 0 — the
only reading a monotonic clock can produce at or before the scan's first
in-scan reading — no entry is expired, so judging every entry by a single
pre-scan "now" removes nothing and returns 0. -/
theorem cleanup_expired_single_now_cex :
    cexReadings 0 ≤ cexReadings 1
    ∧ cleanup_expired cexReadings cexMap
        = ([("a", { value := "x", expires_at := some 100 })], 1)
    ∧ cleanupSingleNow (cexReadings 0) cexMap = (cexMap, 0) :=
  ⟨by decide, by decide, by decide⟩

/-- C2 (amended): `cleanup_expired` removes exactly the entries whose
`expires_at` has passed as of the fresh monotonic `now()` reading taken
when that entry is inspected during the scan (entries inspected later may
be judged at later instants), and returns the number of entries removed
(the decrease in map size). -/
theorem cleanup_expired_per_entry_now (r : Nat → Nat) (m : StoreMap) :
    (cleanup_expired r m).1
      = (m.enum.filter (fun p => !is_expired (r p.1) p.2.2)).map (·.2)
    ∧ (cleanup_expired r m).2
      = (m.enum.filter (fun p => is_expired (r p.1) p.2.2)).length
    ∧ (cleanup_expired r m).2 = mapSize m - mapSize (cleanup_expired r m).1 := by
  have h := cleanupFrom_eq r 0 m
  have hlen := cleanupFrom_len r 0 m
  refine ⟨?_, ?_, ?_⟩
  · simpa [cleanup_expired, List.enum] using congrArg Prod.fst h
  · simpa [cleanup_expired, List.enum] using congrArg Prod.snd h
  · simp only [cleanup_expired, mapSize] at *
    omega

/-- C7: when every clock reading during the call equals `t` (the call's
"now"), `cleanup_expired` removes exactly the entries expired at `t`,
leaves every non-expired entry untouched (same key, value and expiry, in
place), and returns the number removed; in the one-permanent-key plus
one-elapsed-TTL scenario it returns 1 and the permanent key is still
retrievable via `get`. -/
theorem cleanup_expired_exact (t : Nat) (r : Nat → Nat) (hr : ∀ i, r i = t)
    (m : StoreMap) :
    (cleanup_expired r m).1 = m.filter (fun p => !is_expired t p.2)
    ∧ (cleanup_expired r m).2 = (m.filter (fun p => is_expired t p.2)).length
    ∧ (cleanup_expired r m).2 = mapSize m - mapSize (cleanup_expired r m).1
    ∧ (cleanup_expired (fun _ => 10) c7Map).2 = 1
    ∧ (kvGet 10 (cleanup_expired (fun _ => 10) c7Map).1 "perm").1 = some "v" := by
  have heq := cleanup_expired_eq_removeIf r t hr m
  have hlen := mapRemoveIf_len (fun _ e => is_expired t e) m
  refine ⟨?_, ?_, ?_, by decide, by decide⟩
  · rw [heq]
    simpa using mapRemoveIf_filter (fun _ e => is_expired t e) m
  · rw [heq]
    simpa using mapRemoveIf_count (fun _ e => is_expired t e) m
  · rw [heq]
    simp only [mapSize]
    omega

/-- Witness for C7: the constant clock at instant 10 over `c7Map`
discharges the constant-readings hypothesis. -/
theorem cleanup_expired_exact_witness :
    (cleanup_expired (fun _ => 10) c7Map).1
        = c7Map.filter (fun p => !is_expired 10 p.2)
    ∧ (cleanup_expired (fun _ => 10) c7Map).2 = 1 :=
  ⟨(cleanup_expired_exact 10 (fun _ => 10) (fun _ => rfl) c7Map).1,
   (cleanup_expired_exact 10 (fun _ => 10) (fun _ => rfl) c7Map).2.2.2.1⟩

/-- C10: for every map state and predicate, `remove_if` returns the size
before the call minus the size after, removes every entry satisfying the
predicate, retains every other entry unchanged, and for an
everywhere-false predicate returns 0 leaving the map identical. -/
theorem mapRemoveIf_spec (K V : Type) (p : K → V → Bool) (m : HMap K V) :
    (mapRemoveIf p m).2 = mapSize m - mapSize (mapRemoveIf p m).1
    ∧ (mapRemoveIf p m).1 = m.filter (fun e => !p e.1 e.2)
    ∧ ((∀ e ∈ m, p e.1 e.2 = false) → mapRemoveIf p m = (m, 0)) := by
  have hlen := mapRemoveIf_len p m
  refine ⟨by simp only [mapSize]; omega, mapRemoveIf_filter p m, ?_⟩
  intro hall
  have h1 : (mapRemoveIf p m).1 = m := by
    rw [mapRemoveIf_filter]
    exact List.filter_eq_self.mpr (fun a ha => by simp [hall a ha])
  have h2 : (mapRemoveIf p m).2 = 0 := by
    rw [h1] at hlen; omega
  calc mapRemoveIf p m = ((mapRemoveIf p m).1, (mapRemoveIf p m).2) := rfl
    _ = (m, 0) := by rw [h1, h2]

/-- Witness for C10: the everywhere-false predicate on a one-entry
`Nat × Nat` map removes nothing and returns 0. -/
theorem mapRemoveIf_spec_witness :
    mapRemoveIf (fun _ _ => false) [(1, 2)] = ([(1, 2)], 0) :=
  (mapRemoveIf_spec Nat Nat (fun _ _ => false) [(1, 2)]).2.2 (by simp)

/-- C8: if socket creation, binding, or listen setup fails,
`TcpServer::start` logs exactly one failure line and returns immediately
without entering the accept loop — no connection is accepted, no task is
submitted to the pool, and no retry happens in that invocation. -/
theorem tcpStart_failure (createOk bindOk listenOk : Bool)
    (stopFlag accepts : Nat → Bool) (fuel : Nat)
    (h : createOk = false ∨ bindOk = false ∨ listenOk = false) :
    (tcpStart createOk bindOk listenOk stopFlag accepts fuel).entered_accept_loop = false
    ∧ (tcpStart createOk bindOk listenOk stopFlag accepts fuel).connections_accepted = 0
    ∧ (tcpStart createOk bindOk listenOk stopFlag accepts fuel).tasks_submitted = 0
    ∧ (tcpStart createOk bindOk listenOk stopFlag accepts fuel).errors.length = 1 := by
  rcases h with h | h | h
  · subst h; simp [tcpStart]
  · subst h; cases createOk <;> simp [tcpStart]
  · subst h; cases createOk <;> cases bindOk <;> simp [tcpStart]

/-- Witness for C8: socket creation fails while the loop inputs would have
accepted connections; nothing is accepted or submitted. -/
theorem tcpStart_failure_witness :
    (tcpStart false true true (fun _ => false) (fun _ => true) 5).entered_accept_loop = false
    ∧ (tcpStart false true true (fun _ => false) (fun _ => true) 5).connections_accepted = 0
    ∧ (tcpStart false true true (fun _ => false) (fun _ => true) 5).tasks_submitted = 0
    ∧ (tcpStart false true true (fun _ => false) (fun _ => true) 5).errors.length = 1 :=
  tcpStart_failure false true true (fun _ => false) (fun _ => true) 5 (Or.inl rfl)

/-- C9: `ExpiryManager::stop` on a running (joinable) sweeper requests the
loop to exit (`stop_requested := true`) and joins it (afterwards the
thread has exited and is no longer joinable); on a never-started manager
it is a no-op, and any repeated `stop` is a no-op. -/
theorem emStop_spec :
    (∀ m : ExpiryManager, m.joinable = true →
      emStop m = { stop_requested := true, joinable := false })
    ∧ emStop emInit = emInit
    ∧ (∀ m : ExpiryManager, emStop (emStop m) = emStop m) := by
  refine ⟨?_, rfl, ?_⟩
  · intro m h; simp [emStop, h]
  · intro m
    by_cases h : m.joinable
    · simp [emStop, h]
    · simp [emStop, h]

/-- Witness for C9: stopping a freshly started manager yields the
requested-and-joined state. -/
theorem emStop_spec_witness :
    emStop (emStart emInit) = { stop_requested := true, joinable := false } :=
  emStop_spec.1 (emStart emInit) rfl

end MiniRedis
